import Mathlib

/-!
Shallow embedding of the bookstore backend (Express + Prisma + Zod).
The repository contains two variants of the transaction router:

* `src/src/modules/transaction/router.ts` — order creation whose atomic
  transaction decrements each book's stock with a relative update
  (Prisma `decrement`);
* `src/unnamed/part_002` — order creation whose atomic transaction writes
  each book's stock as an absolute value computed from the pre-transaction
  snapshot, plus GET routes `/`, `/:id`, `/statistics` (in that
  registration order) and the statistics aggregation.

Both share the same request parsing (Zod schema) and the same pre-transaction
validation loop (batch read of the non-deleted referenced books, per-item
existence and stock check).  We embed the rows as Lean structures, the
storage state as lists of rows, JavaScript `Map`s as association lists with
last-write-wins lookup, and JavaScript numbers as exact integers/rationals.
-/

namespace Shop

/-- A `Book` row.  `deleted` models `deleted_at IS NOT NULL`. -/
structure Book where
  id : String
  title : String
  price : Int
  stock_quantity : Int
  genre_id : String
  deleted : Bool
  deriving DecidableEq

/-- A `Genre` row. -/
structure Genre where
  id : String
  name : String
  deleted : Bool
  deriving DecidableEq

/-- An `Order` row. -/
structure Order where
  id : String
  user_id : String
  deriving DecidableEq

/-- An `OrderItem` row. -/
structure OrderItem where
  order_id : String
  book_id : String
  quantity : Nat
  deriving DecidableEq

/-- One requested item of a create-transaction body (after Zod parsing the
quantity is a positive integer, hence a `Nat` here; the parse check below
still rejects a zero quantity). -/
structure Item where
  book_id : String
  quantity : Nat
  deriving DecidableEq

/-- The relational storage state.  Lists keep insertion order, matching the
default row order the routers rely on; `next_id` generates fresh order ids
(the database generates UUIDs; only freshness and equality matter here). -/
structure State where
  genres : List Genre
  books : List Book
  orders : List Order
  order_items : List OrderItem
  next_id : Nat
  deriving DecidableEq

/-- The error cases of the create-transaction endpoint, each carrying the
book id its `badRequest` message names. -/
inductive OrderError where
  | invalidBody
  | bookNotFound (book_id : String)
  | insufficientStock (book_id : String)
  deriving DecidableEq

/-- Outcome of the create-transaction endpoint: the 400 `badRequest`
response, or the 201 `created` response carrying `transaction_id`,
`total_quantity` and `total_price`. -/
inductive CreateResult where
  | badRequest (e : OrderError)
  | created (transaction_id : String) (total_quantity : Nat) (total_price : Int)
  deriving DecidableEq

/-- Lookup in the JS `Map` built by `new Map(books.map(b => [b.id, b]))`:
later entries overwrite earlier ones. -/
def mapGet (l : List Book) (k : String) : Option Book :=
  l.foldl (fun acc b => if b.id == k then some b else acc) none

/-- The batch read `prisma.book.findMany` restricted to the requested ids
and to non-soft-deleted rows. -/
def snapshotOf (s : State) (items : List Item) : List Book :=
  s.books.filter (fun b => (items.map (fun i => i.book_id)).contains b.id && b.deleted == false)

/-- The validation loop of both router variants: first missing/deleted book
yields the not-found error, first under-stocked item yields the
insufficient-stock error. -/
def checkItems (snap : List Book) : List Item → Option OrderError
  | [] => none
  | i :: rest =>
    match mapGet snap i.book_id with
    | none => some (.bookNotFound i.book_id)
    | some b =>
      if b.stock_quantity < (i.quantity : Int) then some (.insufficientStock i.book_id)
      else checkItems snap rest

/-- The Zod schema check: a non-empty item array, every quantity a positive
integer. -/
def parseOk (items : List Item) : Bool :=
  !items.isEmpty && items.all (fun i => !(i.quantity == 0))

/-- Stock read through the snapshot map (the routers use a non-null
assertion after validation; the default is never reached on that path). -/
def snapStock (snap : List Book) (bid : String) : Int :=
  ((mapGet snap bid).map (fun b => b.stock_quantity)).getD 0

/-- Price read through the snapshot map. -/
def snapPrice (snap : List Book) (bid : String) : Int :=
  ((mapGet snap bid).map (fun b => b.price)).getD 0

/-- One iteration of the transaction loop of
`src/src/modules/transaction/router.ts`: create the item's order-item row
and decrement that book's stock with a relative update. -/
def txStep (oid : String) (st : State) (it : Item) : State :=
  { st with
    order_items := st.order_items ++ [{ order_id := oid, book_id := it.book_id, quantity := it.quantity }],
    books := st.books.map (fun b =>
      if b.id == it.book_id then { b with stock_quantity := b.stock_quantity - (it.quantity : Int) } else b) }

/-- One iteration of the transaction loop of `src/unnamed/part_002`:
identical except that the book's stock is written as the absolute value
`b.stock_quantity - it.quantity` computed from the pre-transaction snapshot
map. -/
def txStepS (oid : String) (snap : List Book) (st : State) (it : Item) : State :=
  { st with
    order_items := st.order_items ++ [{ order_id := oid, book_id := it.book_id, quantity := it.quantity }],
    books := st.books.map (fun b =>
      if b.id == it.book_id then { b with stock_quantity := snapStock snap it.book_id - (it.quantity : Int) } else b) }

/-- Body of `prisma.$transaction` in `src/src/modules/transaction/router.ts`:
create the order row, then run the per-item loop. -/
def applyTx (s : State) (uid : String) (items : List Item) : String × State :=
  let oid := toString s.next_id
  let s1 : State :=
    { s with orders := s.orders ++ [{ id := oid, user_id := uid }], next_id := s.next_id + 1 }
  (oid, items.foldl (txStep oid) s1)

/-- Body of `prisma.$transaction` in `src/unnamed/part_002`. -/
def applyTxS (s : State) (uid : String) (items : List Item) (snap : List Book) : String × State :=
  let oid := toString s.next_id
  let s1 : State :=
    { s with orders := s.orders ++ [{ id := oid, user_id := uid }], next_id := s.next_id + 1 }
  (oid, items.foldl (txStepS oid snap) s1)

/-- `POST /transactions` of `src/src/modules/transaction/router.ts`:
parse, snapshot read, per-item validation, totals from the snapshot, then
the atomic transaction with relative decrements. -/
def createOrder (s : State) (uid : String) (items : List Item) : CreateResult × State :=
  if parseOk items then
    let snap := snapshotOf s items
    match checkItems snap items with
    | some e => (.badRequest e, s)
    | none =>
      let total_quantity := items.foldl (fun sum i => sum + i.quantity) 0
      let total_price := items.foldl (fun sum i => sum + snapPrice snap i.book_id * (i.quantity : Int)) 0
      let r := applyTx s uid items
      (.created r.1 total_quantity total_price, r.2)
  else (.badRequest .invalidBody, s)

/-- `POST /transactions` of `src/unnamed/part_002`: same parsing,
validation and totals; the transaction writes absolute stock values taken
from the snapshot. -/
def createOrderS (s : State) (uid : String) (items : List Item) : CreateResult × State :=
  if parseOk items then
    let snap := snapshotOf s items
    match checkItems snap items with
    | some e => (.badRequest e, s)
    | none =>
      let total_quantity := items.foldl (fun sum i => sum + i.quantity) 0
      let total_price := items.foldl (fun sum i => sum + snapPrice snap i.book_id * (i.quantity : Int)) 0
      let r := applyTxS s uid items snap
      (.created r.1 total_quantity total_price, r.2)
  else (.badRequest .invalidBody, s)

/-- Stock of the book row with the given id in a list of rows (first
matching row; row ids are unique in database-consistent states). -/
def bstock (l : List Book) (bid : String) : Int :=
  ((l.find? (fun b => b.id == bid)).map (fun b => b.stock_quantity)).getD 0

/-- Stock of the book row with the given id. -/
def stockOf (s : State) (bid : String) : Int :=
  bstock s.books bid

/-- Total quantity a request asks for a given book id, summed over every
item naming that id. -/
def reqQty (items : List Item) (bid : String) : Nat :=
  ((items.filter (fun i => i.book_id == bid)).map (fun i => i.quantity)).sum

/-- Outcome of `DELETE /genre/:id`. -/
inductive DeleteResult where
  | notFound
  | removed
  deriving DecidableEq

/-- `DELETE /genre/:id` of `src/src/modules/genre/router.ts`: look up an
active genre with that id; if found, set its deletion marker
(`deleted_at = new Date()`); nothing else is written. -/
def deleteGenre (s : State) (gid : String) : DeleteResult × State :=
  match s.genres.find? (fun g => g.id == gid && g.deleted == false) with
  | none => (.notFound, s)
  | some _ =>
    (.removed, { s with genres := s.genres.map (fun g =>
      if g.id == gid then { g with deleted := true } else g) })

/-! ### Statistics aggregation (`GET /transactions/statistics` of `src/unnamed/part_002`) -/

/-- Line items of the order with the given id (the `include: items`
relation rows, in stored sequence). -/
def itemsOf (s : State) (oid : String) : List OrderItem :=
  s.order_items.filter (fun it => it.order_id == oid)

/-- Placeholder for a dangling book reference; foreign keys make it
unreachable in database-consistent states. -/
def defaultBook (bid : String) : Book :=
  { id := bid, title := "", price := 0, stock_quantity := 0, genre_id := "", deleted := false }

/-- The joined `it.book` row. -/
def bookOf (s : State) (bid : String) : Book :=
  (s.books.find? (fun b => b.id == bid)).getD (defaultBook bid)

/-- The joined `book.genre` row. -/
def genreRowOf (s : State) (gid : String) : Genre :=
  (s.genres.find? (fun g => g.id == gid)).getD { id := gid, name := "", deleted := false }

/-- `it.book.genre_id` for a line item. -/
def gidOfItem (s : State) (it : OrderItem) : String :=
  (bookOf s it.book_id).genre_id

/-- `it.book.genre.name` for a line item. -/
def gnameOfItem (s : State) (it : OrderItem) : String :=
  (genreRowOf s (gidOfItem s it)).name

/-- Per-order total: sum over the order's line items of the book's current
stored price times the item quantity. -/
def orderTotal (s : State) (oid : String) : Int :=
  (itemsOf s oid).foldl (fun a it => a + (bookOf s it.book_id).price * (it.quantity : Int)) 0

/-- `average_nominal_per_transaction`: the reduce-then-divide of the code,
`totals.length ? totals.reduce((a,b)=>a+b,0)/totals.length : 0`, with JS
numbers modelled exactly as rationals. -/
def averageNominal (s : State) : Rat :=
  let totals := s.orders.map (fun o => orderTotal s o.id)
  if totals.length = 0 then 0
  else ((totals.foldl (fun a b => a + b) 0 : Int) : Rat) / (totals.length : Rat)

/-- JS `Set.add`: append a new element at the end, ignore a duplicate. -/
def setAddL (l : List String) (x : String) : List String :=
  if l.contains x then l else l ++ [x]

/-- Effect on `genreOrders` of one `genreOrders.get(gid)!.add(o.id)`
(preceded by `genreOrders.set(gid, new Set())` when the key is new): the
JS `Map` appends new keys at the end. -/
def goAdd : List (String × List String) → String → String → List (String × List String)
  | [], gid, oid => [(gid, setAddL [] oid)]
  | (k, v) :: rest, gid, oid =>
    if k == gid then (k, setAddL v oid) :: rest
    else (k, v) :: goAdd rest gid oid

/-- First-match association lookup (keys of `genreOrders` are unique by
construction). -/
def lookupA (l : List (String × List String)) (k : String) : Option (List String) :=
  (l.find? (fun e => e.1 == k)).map (fun e => e.2)

/-- `genreNames.get`: the JS `Map.set` overwrites, so the last write wins. -/
def lookupLast (l : List (String × String)) (k : String) : Option String :=
  l.foldl (fun acc e => if e.1 == k then some e.2 else acc) none

/-- The inner loop of the statistics accumulation over one order's line
items, carrying the per-order `seen` set of genre ids: every item records
the genre name; a genre not yet seen in this order gets the order id added
to its distinct-order set. -/
def procItems (s : State) (oid : String) :
    List OrderItem → List String → List (String × List String) → List (String × String) →
    List (String × List String) × List (String × String)
  | [], _, go, gn => (go, gn)
  | it :: rest, seen, go, gn =>
    let gid := gidOfItem s it
    let gn1 := gn ++ [(gid, gnameOfItem s it)]
    if seen.contains gid then procItems s oid rest seen go gn1
    else procItems s oid rest (seen ++ [gid]) (goAdd go gid oid) gn1

/-- The outer loop of the statistics accumulation over all orders, with a
fresh `seen` set per order. -/
def buildAcc (s : State) :
    List Order → List (String × List String) × List (String × String) →
    List (String × List String) × List (String × String)
  | [], acc => acc
  | o :: rest, acc => buildAcc s rest (procItems s o.id (itemsOf s o.id) [] acc.1 acc.2)

/-- The accumulated `genreOrders` map: per genre id, the list of distinct
order ids whose line items touch that genre, keys in first-encounter
order. -/
def genreOrdersList (s : State) : List (String × List String) :=
  (buildAcc s s.orders ([], [])).1

/-- The accumulated `genreNames` map. -/
def genreNamesList (s : State) : List (String × String) :=
  (buildAcc s s.orders ([], [])).2

/-- One entry of `most_sold_genre` / `least_sold_genre`. -/
structure GenreStat where
  genre_id : String
  name : String
  count : Nat
  deriving DecidableEq

/-- `genreNames.get(gid) || gid` — JS `||` falls back on the genre id when
the stored name is absent or the empty string (falsy). -/
def nameFor (gn : List (String × String)) (gid : String) : String :=
  match lookupLast gn gid with
  | none => gid
  | some n => if n == "" then gid else n

/-- The selection loop over the `genreOrders` entries, carrying the `most`
and `least` accumulators; both comparisons are strict, so the first entry
attaining the extremum wins. -/
def selectML (gn : List (String × String)) :
    List (String × List String) → Option GenreStat → Option GenreStat →
    Option GenreStat × Option GenreStat
  | [], most, least => (most, least)
  | (gid, set) :: rest, most, least =>
    let count := set.length
    let nm := nameFor gn gid
    let most1 := match most with
      | none => some { genre_id := gid, name := nm, count := count }
      | some m => if count > m.count then some { genre_id := gid, name := nm, count := count } else some m
    let least1 := match least with
      | none => some { genre_id := gid, name := nm, count := count }
      | some m => if count < m.count then some { genre_id := gid, name := nm, count := count } else some m
    selectML gn rest most1 least1

/-- `most_sold_genre`. -/
def mostSold (s : State) : Option GenreStat :=
  (selectML (genreNamesList s) (genreOrdersList s) none none).1

/-- `least_sold_genre`. -/
def leastSold (s : State) : Option GenreStat :=
  (selectML (genreNamesList s) (genreOrdersList s) none none).2

/-- The statistics response payload. -/
structure Stats where
  total_transactions : Nat
  average_nominal_per_transaction : Rat
  most_sold_genre : Option GenreStat
  least_sold_genre : Option GenreStat
  deriving DecidableEq

/-- `GET /transactions/statistics` of `src/unnamed/part_002`. -/
def computeStatistics (s : State) : Stats :=
  { total_transactions := s.orders.length
    average_nominal_per_transaction := averageNominal s
    most_sold_genre := mostSold s
    least_sold_genre := leastSold s }

/-- An order touches a genre when one of its line items references a book
of that genre. -/
def touchesGenre (s : State) (o : Order) (gid : String) : Bool :=
  (itemsOf s o.id).any (fun it => gidOfItem s it == gid)

/-- Ids of the orders (in stored sequence) touching a genre. -/
def touchedIds (s : State) (os : List Order) (gid : String) : List String :=
  (os.filter (fun o => touchesGenre s o gid)).map (fun o => o.id)

/-- Maximum distinct-order count over the `genreOrders` entries. -/
def maxCnt (gs : List (String × List String)) : Nat :=
  gs.foldl (fun a e => max a e.2.length) 0

/-- Minimum distinct-order count over the `genreOrders` entries (only used
on non-empty lists). -/
def minCnt : List (String × List String) → Nat
  | [] => 0
  | e :: rest => rest.foldl (fun a x => min a x.2.length) e.2.length

/-- The `GenreStat` built for an entry by the selection loop. -/
def toStat (gn : List (String × String)) (e : String × List String) : GenreStat :=
  { genre_id := e.1, name := nameFor gn e.1, count := e.2.length }

/-- Running maximum of entry counts starting from `c`. -/
def maxFrom (c : Nat) (gs : List (String × List String)) : Nat :=
  gs.foldl (fun a e => max a e.2.length) c

/-- Running minimum of entry counts starting from `c`. -/
def minFrom (c : Nat) (gs : List (String × List String)) : Nat :=
  gs.foldl (fun a e => min a e.2.length) c

/-- Conclusion of claim C4: every genre present in the accumulated
`genreOrders` map is counted by the number of distinct orders whose line
items touch it (an order with several books of one genre counts once);
genres absent from the map are touched by no order; both ranking fields are
null when no order has any line item; and `most_sold_genre` /
`least_sold_genre` are entries of the map attaining the maximum / minimum
count. -/
def statsGenreSpec (s : State) : Prop :=
  (∀ k l, lookupA (genreOrdersList s) k = some l →
      l.length = (s.orders.filter (fun o => touchesGenre s o k)).length)
  ∧ (∀ k, lookupA (genreOrdersList s) k = none →
      ∀ o ∈ s.orders, touchesGenre s o k = false)
  ∧ ((∀ o ∈ s.orders, itemsOf s o.id = []) →
      (computeStatistics s).most_sold_genre = none
      ∧ (computeStatistics s).least_sold_genre = none)
  ∧ (∀ m, (computeStatistics s).most_sold_genre = some m →
      (∃ e ∈ genreOrdersList s, e.1 = m.genre_id ∧ e.2.length = m.count)
      ∧ ∀ e ∈ genreOrdersList s, e.2.length ≤ m.count)
  ∧ (∀ m, (computeStatistics s).least_sold_genre = some m →
      (∃ e ∈ genreOrdersList s, e.1 = m.genre_id ∧ e.2.length = m.count)
      ∧ ∀ e ∈ genreOrdersList s, m.count ≤ e.2.length)

/-! ### Express routing of the part_002 transaction router -/

/-- The routes the handlers decide between. -/
inductive TxRoute where
  | listAll
  | detail
  | stats
  deriving DecidableEq

/-- An Express path pattern over a single path segment. -/
inductive Pat where
  | exact (seg : String)
  | param
  deriving DecidableEq

/-- Whether a pattern matches a path segment: `/:id` matches any segment. -/
def patMatches : Pat → String → Bool
  | .exact p, seg => p == seg
  | .param, _ => true

/-- The GET routes of the part_002 transaction router in registration
order: `router.get("/")`, `router.get("/:id")`, `router.get("/statistics")`
(the empty segment stands for the bare `/`). -/
def txGetRoutes : List (Pat × TxRoute) :=
  [(.exact "", .listAll), (.param, .detail), (.exact "statistics", .stats)]

/-- Express dispatch: the first registered matching route handles the
request. -/
def dispatchTxGet (seg : String) : Option TxRoute :=
  (txGetRoutes.find? (fun r => patMatches r.1 seg)).map (fun r => r.2)

/-- A response, reduced to status code and message. -/
structure Resp where
  status : Nat
  message : String
  deriving DecidableEq

/-- `GET /transactions/:id` of part_002: `prisma.order.findUnique` by id,
404 when absent. -/
def getTransactionDetail (s : State) (idStr : String) : Resp :=
  match s.orders.find? (fun o => o.id == idStr) with
  | none => { status := 404, message := "Transaction not found" }
  | some _ => { status := 200, message := "Get transaction detail successfully" }

/-- A GET request against the part_002 transaction router: dispatch by
registration order, then run the selected handler. -/
def handleTxGet (s : State) (seg : String) : Option Resp :=
  match dispatchTxGet seg with
  | some .listAll => some { status := 200, message := "Get all transaction successfully" }
  | some .detail => some (getTransactionDetail s seg)
  | some .stats => some { status := 200, message := "Get transaction statistics successfully" }
  | none => none

/-! ### Concurrency harness for the snapshot-validation race -/

/-- Two concurrent create-order requests whose snapshot validations both
read the same initial state before either transaction commits; when both
validations pass, the two transactions (of the router.ts variant) commit in
sequence.  Returns the final state when both requests succeed. -/
def concurrentPair (s : State) (u1 u2 : String) (i1 i2 : List Item) : Option State :=
  if parseOk i1 && parseOk i2
      && (checkItems (snapshotOf s i1) i1).isNone
      && (checkItems (snapshotOf s i2) i2).isNone then
    some (applyTx (applyTx s u1 i1).2 u2 i2).2
  else none

/-! ### Specification-side predicates -/

/-- A request item is offending: no active (non-deleted) book row carries
its id, or the active row's stock is below the requested quantity. -/
def offendingB (s : State) (i : Item) : Bool :=
  match s.books.find? (fun b => b.id == i.book_id && b.deleted == false) with
  | none => true
  | some b => decide (b.stock_quantity < (i.quantity : Int))

/-- The book id a create-order error message names
(`Book ... not found or deleted` / `Insufficient stock for book ...`). -/
def errBookId : OrderError → Option String
  | .invalidBody => none
  | .bookNotFound bid => some bid
  | .insufficientStock bid => some bid

/-- Whether some book row carries the given id. -/
def hasBook (l : List Book) (bid : String) : Bool :=
  (l.find? (fun b => b.id == bid)).isSome

/-- Conclusion of claim C2 for a successful create call: exactly one new
Order row owned by the caller, one OrderItem row per requested item, the
returned total_quantity equal to the sum of the created OrderItem
quantities, and every book's stock lowered by exactly the total quantity
the request asks for it (zero for unreferenced books). -/
def createEffects (create : State → String → List Item → CreateResult × State)
    (s : State) (uid : String) (items : List Item) : Prop :=
  ∀ oid tq tp s2, create s uid items = (.created oid tq tp, s2) →
    s2.orders = s.orders ++ [{ id := oid, user_id := uid }]
    ∧ s2.order_items = s.order_items
        ++ items.map (fun i => { order_id := oid, book_id := i.book_id, quantity := i.quantity })
    ∧ tq = ((items.map (fun i =>
          ({ order_id := oid, book_id := i.book_id, quantity := i.quantity } : OrderItem))).map
            (fun it => it.quantity)).sum
    ∧ ∀ bid, stockOf s2 bid = stockOf s bid - (reqQty items bid : Int)

/-- Conclusion of claim C3: the call is rejected with an error message
naming an offending book id, and both router variants return with the
storage state unchanged. -/
def rejectedNamingOffender (s : State) (uid : String) (items : List Item) : Prop :=
  ∃ e bid, errBookId e = some bid
    ∧ (∃ i ∈ items, i.book_id = bid ∧ offendingB s i = true)
    ∧ createOrder s uid items = (.badRequest e, s)
    ∧ createOrderS s uid items = (.badRequest e, s)

/-! ### Concrete states for the scenario theorems -/

/-- A genre used by the concrete scenarios. -/
def gFiction : Genre := { id := "g", name := "Fiction", deleted := false }

/-- Book A of the spec scenario: stock 5, price 1000. -/
def bookA : Book :=
  { id := "A", title := "Book A", price := 1000, stock_quantity := 5, genre_id := "g", deleted := false }

/-- Book B of the spec scenario: stock 2, price 500. -/
def bookB : Book :=
  { id := "B", title := "Book B", price := 500, stock_quantity := 2, genre_id := "g", deleted := false }

/-- Initial state of the spec scenario: books A and B, no orders. -/
def sAB : State :=
  { genres := [gFiction], books := [bookA, bookB], orders := [], order_items := [], next_id := 0 }

/-- State with only book B (stock 2), for the concurrency race. -/
def sB : State :=
  { genres := [gFiction], books := [bookB], orders := [], order_items := [], next_id := 0 }

/-- State with one order of total value 100 (book P, price 50, quantity 2),
for the average-nominal witness. -/
def sOne : State :=
  { genres := [gFiction]
    books := [{ id := "P", title := "Book P", price := 50, stock_quantity := 10, genre_id := "g", deleted := false }]
    orders := [{ id := "o1", user_id := "u" }]
    order_items := [{ order_id := "o1", book_id := "P", quantity := 2 }]
    next_id := 1 }

/-- State for the statistics witnesses: order o1 touches genre g1 through
two different books (counted once) and genre g2; order o2 touches g2 only,
so g1 has distinct-order count 1 and g2 count 2. -/
def sStats : State :=
  { genres := [{ id := "g1", name := "Fiction", deleted := false },
               { id := "g2", name := "SciFi", deleted := false }]
    books := [{ id := "A1", title := "A1", price := 10, stock_quantity := 5, genre_id := "g1", deleted := false },
              { id := "A2", title := "A2", price := 20, stock_quantity := 5, genre_id := "g1", deleted := false },
              { id := "B1", title := "B1", price := 30, stock_quantity := 5, genre_id := "g2", deleted := false }]
    orders := [{ id := "o1", user_id := "u" }, { id := "o2", user_id := "u" }]
    order_items := [{ order_id := "o1", book_id := "A1", quantity := 1 },
                    { order_id := "o1", book_id := "A2", quantity := 2 },
                    { order_id := "o1", book_id := "B1", quantity := 1 },
                    { order_id := "o2", book_id := "B1", quantity := 3 }]
    next_id := 3 }

/-- C1: the router.ts variant accepts a request naming book A twice (each
entry within the snapshot stock) and the two relative decrements drive the
stock negative: 5 − 3 − 3 = −1. -/
theorem c1_duplicate_items_negative_stock :
    stockOf sAB "A" = 5
    ∧ (createOrder sAB "u" [⟨"A", 3⟩, ⟨"A", 3⟩]).1 = .created "0" 6 6000
    ∧ stockOf (createOrder sAB "u" [⟨"A", 3⟩, ⟨"A", 3⟩]).2 "A" = -1 := by
  decide

/-- C6 counterexample: the claimed total_price 3500 is wrong; the code
returns 3·1000 + 2·500 = 4000 for the order [A×3, B×2]. -/
theorem c6_total_price_counterexample :
    (createOrder sAB "u" [⟨"A", 3⟩, ⟨"B", 2⟩]).1 = .created "0" 5 4000
    ∧ (createOrder sAB "u" [⟨"A", 3⟩, ⟨"B", 2⟩]).1 ≠ .created "0" 5 3500
    ∧ (createOrderS sAB "u" [⟨"A", 3⟩, ⟨"B", 2⟩]).1 ≠ .created "0" 5 3500 := by
  decide

/-- C6 (amended): from stock A=5 (price 1000) and B=2 (price 500), the
order [A×3, B×2] succeeds with total_price 4000 and total_quantity 5
leaving A=2, B=0, and a subsequent order [B×1] is rejected with the
insufficient-stock error naming B — in both router variants. -/
theorem c6_scenario :
    (createOrder sAB "u" [⟨"A", 3⟩, ⟨"B", 2⟩]).1 = .created "0" 5 4000
    ∧ stockOf (createOrder sAB "u" [⟨"A", 3⟩, ⟨"B", 2⟩]).2 "A" = 2
    ∧ stockOf (createOrder sAB "u" [⟨"A", 3⟩, ⟨"B", 2⟩]).2 "B" = 0
    ∧ (createOrder (createOrder sAB "u" [⟨"A", 3⟩, ⟨"B", 2⟩]).2 "u" [⟨"B", 1⟩]).1
        = .badRequest (.insufficientStock "B")
    ∧ (createOrder (createOrder sAB "u" [⟨"A", 3⟩, ⟨"B", 2⟩]).2 "u" [⟨"B", 1⟩]).2
        = (createOrder sAB "u" [⟨"A", 3⟩, ⟨"B", 2⟩]).2
    ∧ (createOrderS sAB "u" [⟨"A", 3⟩, ⟨"B", 2⟩]).1 = .created "0" 5 4000
    ∧ stockOf (createOrderS sAB "u" [⟨"A", 3⟩, ⟨"B", 2⟩]).2 "A" = 2
    ∧ stockOf (createOrderS sAB "u" [⟨"A", 3⟩, ⟨"B", 2⟩]).2 "B" = 0
    ∧ (createOrderS (createOrderS sAB "u" [⟨"A", 3⟩, ⟨"B", 2⟩]).2 "u" [⟨"B", 1⟩]).1
        = .badRequest (.insufficientStock "B") := by
  decide

/-- C7: the transaction's stock write is an unconditional decrement, so two
concurrent [B×2] requests that both snapshot-validate against stock 2 both
commit: two orders are created and B's final stock is −2. -/
theorem c7_concurrent_oversell :
    stockOf sB "B" = 2
    ∧ (concurrentPair sB "u1" "u2" [⟨"B", 2⟩] [⟨"B", 2⟩]).map (fun st => stockOf st "B")
        = some (-2)
    ∧ (concurrentPair sB "u1" "u2" [⟨"B", 2⟩] [⟨"B", 2⟩]).map (fun st => st.orders.length)
        = some 2 := by
  decide

/-- C2 counterexample: in the part_002 variant a request naming book A
twice ([A×3, A×2], both within stock 5) is accepted, but each absolute
write starts from the snapshot, so the stock only falls by the last
duplicate's quantity: 5 − 2 = 3 instead of 5 − 5 = 0. -/
theorem c2_part002_duplicate_counterexample :
    stockOf sAB "A" = 5
    ∧ reqQty [⟨"A", 3⟩, ⟨"A", 2⟩] "A" = 5
    ∧ (createOrderS sAB "u" [⟨"A", 3⟩, ⟨"A", 2⟩]).1 = .created "0" 5 5000
    ∧ stockOf (createOrderS sAB "u" [⟨"A", 3⟩, ⟨"A", 2⟩]).2 "A" = 3 := by
  decide

/-! ### Helper lemmas: JS Map lookup -/

theorem mapGet_cons (b : Book) (l : List Book) (k : String) :
    mapGet (b :: l) k
      = match mapGet l k with
        | some x => some x
        | none => if b.id == k then some b else none := by
  have shift : ∀ (l : List Book) (acc : Option Book),
      l.foldl (fun a c => if c.id == k then some c else a) acc
        = match l.foldl (fun a c => if c.id == k then some c else a) none with
          | some x => some x
          | none => acc := by
    intro l
    induction l with
    | nil => intro acc; rfl
    | cons c l ih =>
      intro acc
      simp only [List.foldl_cons]
      rw [ih (if c.id == k then some c else acc), ih (if c.id == k then some c else none)]
      by_cases hc : c.id == k
      · cases hf : l.foldl (fun a c => if c.id == k then some c else a) none <;> simp [hc, hf]
      · cases hf : l.foldl (fun a c => if c.id == k then some c else a) none <;> simp [hc, hf]
  simp only [mapGet, List.foldl_cons, List.foldl_nil]
  rw [shift l (if b.id == k then some b else none)]

theorem mapGet_eq_none (l : List Book) (k : String) :
    mapGet l k = none ↔ ∀ b ∈ l, ¬ b.id = k := by
  induction l with
  | nil => simp [mapGet]
  | cons b l ih =>
    rw [mapGet_cons]
    cases hf : mapGet l k <;> by_cases hb : b.id = k <;>
      simp_all

theorem mapGet_eq_some (l : List Book) (k : String) (c : Book)
    (h : mapGet l k = some c) : c ∈ l ∧ c.id = k := by
  induction l with
  | nil => simp [mapGet] at h
  | cons b l ih =>
    rw [mapGet_cons] at h
    cases hf : mapGet l k with
    | some x =>
      rw [hf] at h
      obtain rfl : x = c := by simpa using h
      rcases ih hf with ⟨hmem, hid⟩
      exact ⟨List.mem_cons_of_mem _ hmem, hid⟩
    | none =>
      rw [hf] at h
      by_cases hbk : b.id == k
      · simp only [hbk, if_true] at h
        obtain rfl : b = c := by simpa using h
        exact ⟨List.mem_cons_self _ _, by simpa using hbk⟩
      · simp [hbk] at h

theorem mapGet_filter (l : List Book) (ids : List String) (k : String)
    (hb : (l.map (fun b => b.id)).Nodup) (hk : ids.contains k = true) :
    mapGet (l.filter (fun b => ids.contains b.id && b.deleted == false)) k
      = l.find? (fun b => b.id == k && b.deleted == false) := by
  have hkmem : k ∈ ids := List.elem_iff.mp hk
  induction l with
  | nil => rfl
  | cons b l ih =>
    simp only [List.map_cons, List.nodup_cons] at hb
    have ihl := ih hb.2
    by_cases hid : b.id = k
    · have hnone : mapGet (l.filter (fun b => ids.contains b.id && b.deleted == false)) k
          = none := by
        rw [mapGet_eq_none]
        intro c hc hck
        refine hb.1 ?_
        rw [hid, ← hck]
        exact List.mem_map_of_mem (fun b => b.id) (List.mem_filter.mp hc).1
      have hfnone : l.find? (fun b => b.id == k && b.deleted == false) = none := by
        rw [List.find?_eq_none]
        intro c hc hck
        simp only [Bool.and_eq_true, beq_iff_eq] at hck
        refine hb.1 ?_
        rw [hid, ← hck.1]
        exact List.mem_map_of_mem (fun b => b.id) hc
      by_cases hdel : b.deleted = true
      · have hpred : (ids.contains b.id && b.deleted == false) = false := by simp [hdel]
        have hpred2 : (b.id == k && b.deleted == false) = false := by simp [hdel]
        rw [List.filter_cons, hpred, if_neg (by simp), List.find?_cons, hpred2]
        rw [hnone, hfnone]
      · have hpred : (ids.contains b.id && b.deleted == false) = true := by
          simp only [Bool.and_eq_true, beq_iff_eq]
          exact ⟨List.elem_iff.mpr (hid ▸ hkmem), by simpa using hdel⟩
        have hpred2 : (b.id == k && b.deleted == false) = true := by
          simp only [Bool.and_eq_true, beq_iff_eq]
          exact ⟨hid, by simpa using hdel⟩
        rw [List.filter_cons, hpred, if_pos rfl, List.find?_cons, hpred2]
        rw [mapGet_cons, hnone]
        simp [hid]
    · have hpred2 : (b.id == k && b.deleted == false) = false := by simp [hid]
      rw [List.find?_cons, hpred2]
      by_cases hpred : (ids.contains b.id && b.deleted == false) = true
      · rw [List.filter_cons, hpred, if_pos rfl, mapGet_cons, ihl]
        cases hf : l.find? (fun b => b.id == k && b.deleted == false) <;> simp [hid]
      · rw [List.filter_cons, eq_false_of_ne_true hpred, if_neg (by simp)]
        exact ihl

theorem mapGet_snapshot (s : State) (items : List Item) (k : String)
    (hb : (s.books.map (fun b => b.id)).Nodup)
    (hk : (items.map (fun i => i.book_id)).contains k = true) :
    mapGet (snapshotOf s items) k
      = s.books.find? (fun b => b.id == k && b.deleted == false) := by
  rw [snapshotOf]
  exact mapGet_filter s.books (items.map (fun i => i.book_id)) k hb hk

/-! ### Helper lemmas: validation loop -/

theorem checkItems_none_forall (snap : List Book) :
    ∀ its : List Item, checkItems snap its = none →
      ∀ i ∈ its, ∃ b, mapGet snap i.book_id = some b
        ∧ ¬ b.stock_quantity < (i.quantity : Int) := by
  intro its
  induction its with
  | nil => intro _ i hi; simp at hi
  | cons j rest ih =>
    intro h i hi
    rw [checkItems] at h
    split at h
    · exact absurd h (by simp)
    · rename_i b hmg
      split at h
      · exact absurd h (by simp)
      · rename_i hs
        rcases List.mem_cons.mp hi with hij | hir
        · subst hij
          exact ⟨b, hmg, hs⟩
        · exact ih h i hir

theorem checkItems_first_offender (s : State) (items : List Item)
    (hb : (s.books.map (fun b => b.id)).Nodup) :
    ∀ its : List Item,
      (∀ i ∈ its, (items.map (fun j => j.book_id)).contains i.book_id = true) →
      (∃ i ∈ its, offendingB s i = true) →
      ∃ e bid, errBookId e = some bid
        ∧ (∃ i ∈ its, i.book_id = bid ∧ offendingB s i = true)
        ∧ checkItems (snapshotOf s items) its = some e := by
  intro its
  induction its with
  | nil => intro _ hoff; simp at hoff
  | cons j rest ih =>
    intro hsub hoff
    have hmg := mapGet_snapshot s items j.book_id hb (hsub j (List.mem_cons_self _ _))
    cases hfind : s.books.find? (fun b => b.id == j.book_id && b.deleted == false) with
    | none =>
      refine ⟨.bookNotFound j.book_id, j.book_id, rfl, ⟨j, List.mem_cons_self _ _, rfl, ?_⟩, ?_⟩
      · rw [offendingB, hfind]
      · rw [checkItems, hmg, hfind]
    | some b =>
      by_cases hs : b.stock_quantity < (j.quantity : Int)
      · refine ⟨.insufficientStock j.book_id, j.book_id, rfl,
          ⟨j, List.mem_cons_self _ _, rfl, ?_⟩, ?_⟩
        · rw [offendingB, hfind]; simpa using hs
        · rw [checkItems, hmg, hfind]
          show (if b.stock_quantity < (j.quantity : Int) then
              some (OrderError.insufficientStock j.book_id)
            else checkItems (snapshotOf s items) rest) = _
          rw [if_pos hs]
      · have hoffj : offendingB s j = false := by
          rw [offendingB, hfind]; simpa using hs
        have hrest : ∃ i ∈ rest, offendingB s i = true := by
          rcases hoff with ⟨i, hi, hioff⟩
          rcases List.mem_cons.mp hi with hij | hir
          · rw [hij, hoffj] at hioff; exact absurd hioff (by simp)
          · exact ⟨i, hir, hioff⟩
        rcases ih (fun i hi => hsub i (List.mem_cons_of_mem _ hi)) hrest with
          ⟨e, bid, hnm, ⟨i, hi, hibid, hioff⟩, hchk⟩
        refine ⟨e, bid, hnm, ⟨i, List.mem_cons_of_mem _ hi, hibid, hioff⟩, ?_⟩
        rw [checkItems, hmg, hfind]
        show (if b.stock_quantity < (j.quantity : Int) then
            some (OrderError.insufficientStock j.book_id)
          else checkItems (snapshotOf s items) rest) = _
        rw [if_neg hs, hchk]

theorem parseOk_true (items : List Item) (hne : items ≠ [])
    (hq : ∀ i ∈ items, i.quantity ≠ 0) : parseOk items = true := by
  rw [parseOk]
  have hie : items.isEmpty = false := by
    cases items with
    | nil => exact absurd rfl hne
    | cons a l => rfl
  rw [hie]
  simp only [Bool.not_false, Bool.true_and]
  rw [List.all_eq_true]
  intro i hi
  simpa using hq i hi

/-- C3: a request referencing a missing/soft-deleted book or asking more
than a book's current stock is rejected before the transaction, the error
names an offending book id, and (both router variants) the storage state is
returned unchanged. -/
theorem c3_offending_request_rejected (s : State) (uid : String) (items : List Item)
    (hb : (s.books.map (fun b => b.id)).Nodup)
    (hne : items ≠ []) (hq : ∀ i ∈ items, i.quantity ≠ 0)
    (hoff : ∃ i ∈ items, offendingB s i = true) :
    rejectedNamingOffender s uid items := by
  have hsub : ∀ i ∈ items, (items.map (fun j => j.book_id)).contains i.book_id = true := by
    intro i hi
    exact List.elem_iff.mpr (List.mem_map_of_mem (fun j => j.book_id) hi)
  rcases checkItems_first_offender s items hb items hsub hoff with
    ⟨e, bid, hnm, hwit, hchk⟩
  refine ⟨e, bid, hnm, hwit, ?_, ?_⟩
  · rw [createOrder, if_pos (parseOk_true items hne hq)]
    simp only [hchk]
  · rw [createOrderS, if_pos (parseOk_true items hne hq)]
    simp only [hchk]

/-- Witness for C3 at a concrete input: book B has stock 2 and the request
asks for 3. -/
theorem c3_offending_request_rejected_witness :
    ((sAB.books.map (fun b => b.id)).Nodup
      ∧ ([⟨"B", 3⟩] : List Item) ≠ []
      ∧ (∀ i ∈ ([⟨"B", 3⟩] : List Item), i.quantity ≠ 0)
      ∧ (∃ i ∈ ([⟨"B", 3⟩] : List Item), offendingB sAB i = true))
    ∧ rejectedNamingOffender sAB "u" [⟨"B", 3⟩] :=
  ⟨⟨by decide, by decide, by decide, by decide⟩,
    c3_offending_request_rejected sAB "u" [⟨"B", 3⟩]
      (by decide) (by decide) (by decide) (by decide)⟩

/-! ### C9: route registration order -/

/-- C9: on the part_002 transaction router the parameterised detail route
is registered before the literal statistics route, so a GET for the path
segment `statistics` dispatches to the detail handler; when no order has
id `statistics`, the response is the 404 `Transaction not found`, and the
statistics handler is never selected for that path. -/
theorem c9_statistics_shadowed_by_detail (s : State)
    (h : ∀ o ∈ s.orders, o.id ≠ "statistics") :
    dispatchTxGet "statistics" = some .detail
    ∧ handleTxGet s "statistics"
        = some { status := 404, message := "Transaction not found" } := by
  have hfind : s.orders.find? (fun o => o.id == "statistics") = none := by
    rw [List.find?_eq_none]
    intro o ho
    simpa using h o ho
  have hdisp : dispatchTxGet "statistics" = some .detail := by decide
  refine ⟨hdisp, ?_⟩
  rw [handleTxGet, hdisp]
  rw [getTransactionDetail, hfind]

/-- Witness for C9 on a state with no orders at all. -/
theorem c9_statistics_shadowed_by_detail_witness :
    (∀ o ∈ sAB.orders, o.id ≠ "statistics")
    ∧ dispatchTxGet "statistics" = some .detail
    ∧ handleTxGet sAB "statistics"
        = some { status := 404, message := "Transaction not found" } :=
  ⟨fun o ho => absurd ho (by simp [sAB]),
    c9_statistics_shadowed_by_detail sAB (fun o ho => absurd ho (by simp [sAB]))⟩

/-! ### Helper lemmas: transaction folds -/

theorem find?_map_of_pred {α : Type} (f : α → α) (p : α → Bool)
    (hp : ∀ a, p (f a) = p a) (l : List α) :
    (l.map f).find? p = (l.find? p).map f := by
  induction l with
  | nil => rfl
  | cons a l ih =>
    rw [List.map_cons]
    cases hpa : p a with
    | true =>
      rw [List.find?_cons_of_pos _ ((hp a).trans hpa), List.find?_cons_of_pos _ hpa]
      rfl
    | false =>
      rw [List.find?_cons_of_neg _ (by rw [hp a, hpa]; simp),
        List.find?_cons_of_neg _ (by rw [hpa]; simp), ih]

theorem foldl_add_map {α M : Type} [AddCommMonoid M] (f : α → M) :
    ∀ (l : List α) (i : M), l.foldl (fun a x => a + f x) i = i + (l.map f).sum := by
  intro l
  induction l with
  | nil => intro i; simp
  | cons x l ih =>
    intro i
    rw [List.foldl_cons, ih, List.map_cons, List.sum_cons, add_assoc]

theorem bstock_map_upd (g : Book → Book) (hg : ∀ b, (g b).id = b.id)
    (bid : String) (l : List Book) (k : String) :
    bstock (l.map (fun b => if b.id == bid then g b else b)) k
      = match l.find? (fun b => b.id == k) with
        | none => 0
        | some c => if k = bid then (g c).stock_quantity else c.stock_quantity := by
  have hf : ∀ b : Book, (if (b.id == bid) = true then g b else b).id = b.id := by
    intro b
    by_cases hb : b.id == bid <;> simp [hb, hg]
  have hpred : ∀ b : Book,
      ((fun b => b.id == k) ((fun b => if b.id == bid then g b else b) b))
        = ((fun b => b.id == k) b) := by
    intro b
    show ((if (b.id == bid) = true then g b else b).id == k) = (b.id == k)
    rw [hf b]
  rw [bstock, find?_map_of_pred (fun b => if b.id == bid then g b else b)
    (fun b => b.id == k) hpred l]
  cases hfind : l.find? (fun b => b.id == k) with
  | none => rfl
  | some c =>
    have hck : c.id = k := by simpa using List.find?_some hfind
    show (if (c.id == bid) = true then g c else c).stock_quantity
      = if k = bid then (g c).stock_quantity else c.stock_quantity
    by_cases hkb : k = bid
    · have hc2 : (c.id == bid) = true := by simp [hck, hkb]
      rw [hc2, if_pos rfl, if_pos hkb]
    · have hc2 : (c.id == bid) = false := by simp [hck, hkb]
      rw [hc2, if_neg (by simp), if_neg hkb]

theorem hasBook_map (g : Book → Book) (hg : ∀ b, (g b).id = b.id)
    (bid : String) (l : List Book) (k : String) :
    hasBook (l.map (fun b => if b.id == bid then g b else b)) k = hasBook l k := by
  have hf : ∀ b : Book, (if (b.id == bid) = true then g b else b).id = b.id := by
    intro b
    by_cases hb : b.id == bid <;> simp [hb, hg]
  have hpred : ∀ b : Book,
      ((fun b => b.id == k) ((fun b => if b.id == bid then g b else b) b))
        = ((fun b => b.id == k) b) := by
    intro b
    show ((if (b.id == bid) = true then g b else b).id == k) = (b.id == k)
    rw [hf b]
  rw [hasBook, hasBook, find?_map_of_pred (fun b => if b.id == bid then g b else b)
    (fun b => b.id == k) hpred l]
  cases l.find? (fun b => b.id == k) <;> rfl

theorem reqQty_eq_zero (items : List Item) (k : String)
    (h : ∀ i ∈ items, ¬ i.book_id = k) : reqQty items k = 0 := by
  rw [reqQty]
  have hfil : items.filter (fun i => i.book_id == k) = [] := by
    rw [List.filter_eq_nil_iff]
    intro i hi
    simpa using h i hi
  rw [hfil]
  rfl

theorem reqQty_cons (it : Item) (rest : List Item) (k : String) :
    (reqQty (it :: rest) k : Int)
      = (if k = it.book_id then (it.quantity : Int) else 0) + (reqQty rest k : Int) := by
  rw [reqQty, reqQty, List.filter_cons]
  by_cases hkb : k = it.book_id
  · have : (it.book_id == k) = true := by simp [hkb]
    rw [this, if_pos rfl, if_pos hkb]
    simp only [List.map_cons, List.sum_cons]
    push_cast
    ring
  · have : (it.book_id == k) = false := by
      simp only [beq_eq_false_iff_ne, ne_eq]
      exact fun hc => hkb hc.symm
    rw [this, if_neg (by simp), if_neg hkb]
    ring

theorem txFold_orders (oid : String) :
    ∀ (items : List Item) (st : State), (items.foldl (txStep oid) st).orders = st.orders := by
  intro items
  induction items with
  | nil => intro st; rfl
  | cons it rest ih =>
    intro st
    rw [List.foldl_cons, ih]
    rfl

theorem txFoldS_orders (oid : String) (snap : List Book) :
    ∀ (items : List Item) (st : State), (items.foldl (txStepS oid snap) st).orders = st.orders := by
  intro items
  induction items with
  | nil => intro st; rfl
  | cons it rest ih =>
    intro st
    rw [List.foldl_cons, ih]
    rfl

theorem txFold_items (oid : String) :
    ∀ (items : List Item) (st : State),
      (items.foldl (txStep oid) st).order_items
        = st.order_items ++ items.map (fun i =>
            { order_id := oid, book_id := i.book_id, quantity := i.quantity }) := by
  intro items
  induction items with
  | nil => intro st; simp
  | cons it rest ih =>
    intro st
    rw [List.foldl_cons, ih, List.map_cons]
    show st.order_items ++ [_] ++ _ = _
    rw [List.append_assoc]
    rfl

theorem txFoldS_items (oid : String) (snap : List Book) :
    ∀ (items : List Item) (st : State),
      (items.foldl (txStepS oid snap) st).order_items
        = st.order_items ++ items.map (fun i =>
            { order_id := oid, book_id := i.book_id, quantity := i.quantity }) := by
  intro items
  induction items with
  | nil => intro st; simp
  | cons it rest ih =>
    intro st
    rw [List.foldl_cons, ih, List.map_cons]
    show st.order_items ++ [_] ++ _ = _
    rw [List.append_assoc]
    rfl

theorem txFold_stock (oid : String) :
    ∀ (items : List Item) (st : State) (k : String),
      (∀ i ∈ items, hasBook st.books i.book_id = true) →
      bstock (items.foldl (txStep oid) st).books k
        = bstock st.books k - (reqQty items k : Int) := by
  intro items
  induction items with
  | nil =>
    intro st k _
    rw [List.foldl_nil, reqQty]
    simp
  | cons it rest ih =>
    intro st k hex
    have hexr : ∀ i ∈ rest, hasBook (txStep oid st it).books i.book_id = true := by
      intro i hi
      show hasBook (st.books.map (fun b =>
        if b.id == it.book_id
        then { b with stock_quantity := b.stock_quantity - (it.quantity : Int) } else b)) i.book_id = true
      rw [hasBook_map (fun b => { b with stock_quantity := b.stock_quantity - (it.quantity : Int) })
        (fun b => rfl) it.book_id st.books i.book_id]
      exact hex i (List.mem_cons_of_mem _ hi)
    rw [List.foldl_cons, ih (txStep oid st it) k hexr]
    have hstep : bstock (txStep oid st it).books k
        = bstock st.books k - (if k = it.book_id then (it.quantity : Int) else 0) := by
      show bstock (st.books.map (fun b =>
        if b.id == it.book_id
        then { b with stock_quantity := b.stock_quantity - (it.quantity : Int) } else b)) k = _
      rw [bstock_map_upd (fun b => { b with stock_quantity := b.stock_quantity - (it.quantity : Int) })
        (fun b => rfl) it.book_id st.books k]
      by_cases hkb : k = it.book_id
      · subst hkb
        cases hfind : st.books.find? (fun b => b.id == it.book_id) with
        | none =>
          exfalso
          have hhb := hex it (List.mem_cons_self _ _)
          rw [hasBook, hfind] at hhb
          simp at hhb
        | some c =>
          simp [bstock, hfind]
      · cases hfind : st.books.find? (fun b => b.id == k) with
        | none => simp [bstock, hfind, hkb]
        | some c => simp [bstock, hfind, hkb]
    rw [hstep, reqQty_cons]
    ring

theorem txFoldS_stock (oid : String) (snap : List Book) :
    ∀ (items : List Item) (st : State) (k : String),
      (items.map (fun i => i.book_id)).Nodup →
      (∀ i ∈ items, hasBook st.books i.book_id = true) →
      bstock (items.foldl (txStepS oid snap) st).books k
        = if (items.map (fun i => i.book_id)).contains k
          then snapStock snap k - (reqQty items k : Int)
          else bstock st.books k := by
  intro items
  induction items with
  | nil =>
    intro st k _ _
    rw [List.foldl_nil]
    simp
  | cons it rest ih =>
    intro st k hnd hex
    simp only [List.map_cons, List.nodup_cons] at hnd
    have hexr : ∀ i ∈ rest, hasBook (txStepS oid snap st it).books i.book_id = true := by
      intro i hi
      show hasBook (st.books.map (fun b =>
        if b.id == it.book_id
        then { b with stock_quantity := snapStock snap it.book_id - (it.quantity : Int) } else b))
        i.book_id = true
      rw [hasBook_map (fun b =>
          { b with stock_quantity := snapStock snap it.book_id - (it.quantity : Int) })
        (fun b => rfl) it.book_id st.books i.book_id]
      exact hex i (List.mem_cons_of_mem _ hi)
    rw [List.foldl_cons, ih (txStepS oid snap st it) k hnd.2 hexr]
    have hstep : ∀ k2, bstock (txStepS oid snap st it).books k2
        = if k2 = it.book_id then snapStock snap it.book_id - (it.quantity : Int)
          else bstock st.books k2 := by
      intro k2
      show bstock (st.books.map (fun b =>
        if b.id == it.book_id
        then { b with stock_quantity := snapStock snap it.book_id - (it.quantity : Int) } else b)) k2 = _
      rw [bstock_map_upd (fun b =>
          { b with stock_quantity := snapStock snap it.book_id - (it.quantity : Int) })
        (fun b => rfl) it.book_id st.books k2]
      by_cases hkb : k2 = it.book_id
      · subst hkb
        cases hfind : st.books.find? (fun b => b.id == it.book_id) with
        | none =>
          exfalso
          have hhb := hex it (List.mem_cons_self _ _)
          rw [hasBook, hfind] at hhb
          simp at hhb
        | some c =>
          simp [bstock, hfind]
      · cases hfind : st.books.find? (fun b => b.id == k2) with
        | none => simp [bstock, hfind, hkb]
        | some c => simp [bstock, hfind, hkb]
    rw [List.map_cons]
    by_cases hkb : k = it.book_id
    · have hknr : ((rest.map (fun i => i.book_id)).contains k) = false := by
        refine eq_false_of_ne_true ?_
        intro hc
        exact hnd.1 (hkb ▸ List.elem_iff.mp hc)
      have hcons : ((it.book_id :: rest.map (fun i => i.book_id)).contains k) = true := by
        simp [List.contains_cons, hkb]
      rw [hknr, if_neg (by simp), hcons, if_pos rfl]
      rw [hstep k, if_pos hkb, reqQty_cons, if_pos hkb, hkb]
      have hrq : reqQty rest it.book_id = 0 := by
        refine reqQty_eq_zero rest it.book_id ?_
        intro i hi hik
        exact hnd.1 (hik ▸ List.mem_map_of_mem (fun i => i.book_id) hi)
      rw [hrq]
      ring
    · have hcons : ((it.book_id :: rest.map (fun i => i.book_id)).contains k)
          = ((rest.map (fun i => i.book_id)).contains k) := by
        simp [List.contains_cons, hkb]
      rw [hcons, hstep k, if_neg hkb, reqQty_cons, if_neg hkb]
      by_cases hc : ((rest.map (fun i => i.book_id)).contains k) = true
      · rw [hc, if_pos rfl, if_pos rfl]
        ring
      · rw [eq_false_of_ne_true hc, if_neg (by simp), if_neg (by simp)]

theorem checkItems_hasBook (s : State) (items : List Item)
    (hchk : checkItems (snapshotOf s items) items = none) :
    ∀ i ∈ items, hasBook s.books i.book_id = true := by
  intro i hi
  rcases checkItems_none_forall (snapshotOf s items) items hchk i hi with ⟨b, hmg, _⟩
  rcases mapGet_eq_some _ _ _ hmg with ⟨hmem, hid⟩
  have hbl : b ∈ s.books := by
    rw [snapshotOf] at hmem
    exact (List.mem_filter.mp hmem).1
  rw [hasBook, Option.isSome_iff_exists]
  have : (s.books.find? (fun x => x.id == i.book_id)).isSome := by
    rw [List.find?_isSome]
    exact ⟨b, hbl, by simp [hid]⟩
  rcases Option.isSome_iff_exists.mp this with ⟨x, hx⟩
  exact ⟨x, hx⟩

/-- C2: effects of a successful order creation.  The router.ts variant
satisfies the claim in full (its relative decrements accumulate across
duplicate entries); the part_002 variant satisfies it for requests naming
each book at most once, and both variants leave the state unchanged on any
rejection. -/
theorem c2_create_order_effects (s : State) (uid : String) (items : List Item) :
    createEffects createOrder s uid items
    ∧ (∀ e s2, createOrder s uid items = (.badRequest e, s2) → s2 = s)
    ∧ (∀ e s2, createOrderS s uid items = (.badRequest e, s2) → s2 = s)
    ∧ ((s.books.map (fun b => b.id)).Nodup → (items.map (fun i => i.book_id)).Nodup →
        createEffects createOrderS s uid items) := by
  refine ⟨?_, ?_, ?_, ?_⟩
  · intro oid tq tp s2 h
    by_cases hp : parseOk items = true
    · rw [createOrder, if_pos hp] at h
      cases hchk : checkItems (snapshotOf s items) items with
      | some e =>
        simp only [hchk] at h
        exact absurd h (by simp)
      | none =>
        simp only [hchk] at h
        simp only [Prod.mk.injEq, CreateResult.created.injEq] at h
        obtain ⟨⟨hoid, htq, htp⟩, hs2⟩ := h
        have hoid2 : toString s.next_id = oid := hoid
        have hex := checkItems_hasBook s items hchk
        refine ⟨?_, ?_, ?_, ?_⟩
        · rw [← hs2]
          show (items.foldl (txStep (toString s.next_id)) { s with orders := s.orders ++ [{ id := toString s.next_id, user_id := uid }], next_id := s.next_id + 1 }).orders = _
          rw [txFold_orders]
          show s.orders ++ [{ id := toString s.next_id, user_id := uid }] = _
          rw [hoid2]
        · rw [← hs2]
          show (items.foldl (txStep (toString s.next_id)) { s with orders := s.orders ++ [{ id := toString s.next_id, user_id := uid }], next_id := s.next_id + 1 }).order_items = _
          rw [txFold_items]
          show s.order_items ++ items.map (fun i =>
            { order_id := toString s.next_id, book_id := i.book_id, quantity := i.quantity }) = _
          rw [hoid2]
        · rw [← htq, foldl_add_map (fun i => i.quantity) items 0, List.map_map]
          simp only [zero_add]
          rfl
        · intro bid
          rw [← hs2]
          show bstock (items.foldl (txStep (toString s.next_id)) { s with orders := s.orders ++ [{ id := toString s.next_id, user_id := uid }], next_id := s.next_id + 1 }).books bid = stockOf s bid - (reqQty items bid : Int)
          rw [txFold_stock (toString s.next_id) items { s with orders := s.orders ++ [{ id := toString s.next_id, user_id := uid }], next_id := s.next_id + 1 } bid (fun i hi => hex i hi)]
          rfl
    · rw [createOrder, if_neg hp] at h
      exact absurd h (by simp)
  · intro e s2 h
    by_cases hp : parseOk items = true
    · rw [createOrder, if_pos hp] at h
      cases hchk : checkItems (snapshotOf s items) items with
      | some e2 =>
        simp only [hchk] at h
        exact (congrArg Prod.snd h).symm
      | none =>
        simp only [hchk] at h
        exact absurd h (by simp)
    · rw [createOrder, if_neg hp] at h
      exact (congrArg Prod.snd h).symm
  · intro e s2 h
    by_cases hp : parseOk items = true
    · rw [createOrderS, if_pos hp] at h
      cases hchk : checkItems (snapshotOf s items) items with
      | some e2 =>
        simp only [hchk] at h
        exact (congrArg Prod.snd h).symm
      | none =>
        simp only [hchk] at h
        exact absurd h (by simp)
    · rw [createOrderS, if_neg hp] at h
      exact (congrArg Prod.snd h).symm
  · intro hbooks hitems oid tq tp s2 h
    by_cases hp : parseOk items = true
    · rw [createOrderS, if_pos hp] at h
      cases hchk : checkItems (snapshotOf s items) items with
      | some e =>
        simp only [hchk] at h
        exact absurd h (by simp)
      | none =>
        simp only [hchk] at h
        simp only [Prod.mk.injEq, CreateResult.created.injEq] at h
        obtain ⟨⟨hoid, htq, htp⟩, hs2⟩ := h
        have hoid2 : toString s.next_id = oid := hoid
        have hex := checkItems_hasBook s items hchk
        refine ⟨?_, ?_, ?_, ?_⟩
        · rw [← hs2]
          show (items.foldl (txStepS (toString s.next_id) (snapshotOf s items)) { s with orders := s.orders ++ [{ id := toString s.next_id, user_id := uid }], next_id := s.next_id + 1 }).orders = _
          rw [txFoldS_orders]
          show s.orders ++ [{ id := toString s.next_id, user_id := uid }] = _
          rw [hoid2]
        · rw [← hs2]
          show (items.foldl (txStepS (toString s.next_id) (snapshotOf s items)) { s with orders := s.orders ++ [{ id := toString s.next_id, user_id := uid }], next_id := s.next_id + 1 }).order_items = _
          rw [txFoldS_items]
          show s.order_items ++ items.map (fun i =>
            { order_id := toString s.next_id, book_id := i.book_id, quantity := i.quantity }) = _
          rw [hoid2]
        · rw [← htq, foldl_add_map (fun i => i.quantity) items 0, List.map_map]
          simp only [zero_add]
          rfl
        · intro bid
          rw [← hs2]
          show bstock (items.foldl (txStepS (toString s.next_id) (snapshotOf s items)) { s with orders := s.orders ++ [{ id := toString s.next_id, user_id := uid }], next_id := s.next_id + 1 }).books bid = stockOf s bid - (reqQty items bid : Int)
          rw [txFoldS_stock (toString s.next_id) (snapshotOf s items) items { s with orders := s.orders ++ [{ id := toString s.next_id, user_id := uid }], next_id := s.next_id + 1 } bid hitems (fun i hi => hex i hi)]
          by_cases hc : (items.map (fun i => i.book_id)).contains bid = true
          · rw [if_pos hc]
            have hkmem : bid ∈ items.map (fun i => i.book_id) := List.elem_iff.mp hc
            rcases List.mem_map.mp hkmem with ⟨i, hi, hib⟩
            rcases checkItems_none_forall (snapshotOf s items) items hchk i hi with ⟨b, hmg, _⟩
            rw [hib] at hmg
            have hsnap : snapStock (snapshotOf s items) bid = stockOf s bid := by
              rcases mapGet_eq_some (snapshotOf s items) bid b hmg with ⟨hmemf, hidb⟩
              have hbmem : b ∈ s.books := by
                rw [snapshotOf] at hmemf
                exact (List.mem_filter.mp hmemf).1
              have hfound : ∃ c, s.books.find? (fun x => x.id == bid) = some c := by
                rw [← Option.isSome_iff_exists, List.find?_isSome]
                exact ⟨b, hbmem, by simp [hidb]⟩
              rcases hfound with ⟨c, hc2⟩
              have hcmem := List.mem_of_find?_eq_some hc2
              have hcid : c.id = bid := by simpa using List.find?_some hc2
              have hbc : b = c :=
                List.inj_on_of_nodup_map hbooks hbmem hcmem (by rw [hidb, hcid])
              rw [snapStock, hmg, stockOf, bstock, hc2, ← hbc]
            rw [hsnap]
          · rw [if_neg hc]
            have hrq : reqQty items bid = 0 := by
              refine reqQty_eq_zero items bid ?_
              intro i hi hib
              exact hc (List.elem_iff.mpr (hib ▸ List.mem_map_of_mem (fun i => i.book_id) hi))
            show bstock s.books bid = stockOf s bid - (reqQty items bid : Int)
            rw [hrq]
            show bstock s.books bid = bstock s.books bid - ((0 : Nat) : Int)
            simp
    · rw [createOrderS, if_neg hp] at h
      exact absurd h (by simp)

/-- Witness for C2 at the concrete scenario order [A×3, B×2]. -/
theorem c2_create_order_effects_witness :
    (createEffects createOrder sAB "u" [⟨"A", 3⟩, ⟨"B", 2⟩]
      ∧ (∀ e s2, createOrder sAB "u" [⟨"A", 3⟩, ⟨"B", 2⟩] = (.badRequest e, s2) → s2 = sAB)
      ∧ (∀ e s2, createOrderS sAB "u" [⟨"A", 3⟩, ⟨"B", 2⟩] = (.badRequest e, s2) → s2 = sAB)
      ∧ ((sAB.books.map (fun b => b.id)).Nodup
          → (([⟨"A", 3⟩, ⟨"B", 2⟩] : List Item).map (fun i => i.book_id)).Nodup
          → createEffects createOrderS sAB "u" [⟨"A", 3⟩, ⟨"B", 2⟩]))
    ∧ (sAB.books.map (fun b => b.id)).Nodup
    ∧ (([⟨"A", 3⟩, ⟨"B", 2⟩] : List Item).map (fun i => i.book_id)).Nodup :=
  ⟨c2_create_order_effects sAB "u" [⟨"A", 3⟩, ⟨"B", 2⟩], by decide, by decide⟩

/-! ### C5: average nominal per transaction -/

/-- C5: `average_nominal_per_transaction` is the arithmetic mean of the
per-order totals (each total summing the book's current stored price times
the item quantity), 0 for zero orders, and 100 for a single order of total
100. -/
theorem c5_average_is_mean (s : State) :
    (computeStatistics s).average_nominal_per_transaction
      = (if s.orders.length = 0 then 0
          else (((s.orders.map (fun o => orderTotal s o.id)).sum : Int) : Rat)
            / (s.orders.length : Rat))
    ∧ (s.orders = [] → (computeStatistics s).average_nominal_per_transaction = 0)
    ∧ (∀ o : Order, s.orders = [o] → orderTotal s o.id = 100 →
        (computeStatistics s).average_nominal_per_transaction = 100) := by
  have hmain : (computeStatistics s).average_nominal_per_transaction
      = (if s.orders.length = 0 then 0
          else (((s.orders.map (fun o => orderTotal s o.id)).sum : Int) : Rat)
            / (s.orders.length : Rat)) := by
    show averageNominal s = _
    simp only [averageNominal, List.length_map]
    by_cases h0 : s.orders.length = 0
    · rw [if_pos h0, if_pos h0]
    · rw [if_neg h0, if_neg h0]
      rw [foldl_add_map (fun x : Int => x) (s.orders.map (fun o => orderTotal s o.id)) 0]
      simp
      rfl
  refine ⟨hmain, ?_, ?_⟩
  · intro h
    rw [hmain, h]
    simp
  · intro o h h100
    rw [hmain, h]
    simp [h100]

/-- Witness for C5 on the one-order state of total 100. -/
theorem c5_average_is_mean_witness :
    ((computeStatistics sOne).average_nominal_per_transaction
        = (if sOne.orders.length = 0 then 0
            else (((sOne.orders.map (fun o => orderTotal sOne o.id)).sum : Int) : Rat)
              / (sOne.orders.length : Rat))
      ∧ (sOne.orders = [] → (computeStatistics sOne).average_nominal_per_transaction = 0)
      ∧ (∀ o : Order, sOne.orders = [o] → orderTotal sOne o.id = 100 →
          (computeStatistics sOne).average_nominal_per_transaction = 100))
    ∧ (computeStatistics sOne).average_nominal_per_transaction = 100 :=
  ⟨c5_average_is_mean sOne,
    (c5_average_is_mean sOne).2.2 { id := "o1", user_id := "u" } (by decide) (by decide)⟩

/-! ### C8: genre soft delete is frame-preserving -/

theorem deleteGenre_state (s : State) (gid : String) :
    (deleteGenre s gid).2 = s
    ∨ (deleteGenre s gid).2
        = { s with genres := s.genres.map (fun g => if g.id == gid then { g with deleted := true } else g) } := by
  rw [deleteGenre]
  cases hfind : s.genres.find? (fun g => g.id == gid && g.deleted == false) with
  | none => exact Or.inl rfl
  | some g => exact Or.inr rfl

theorem genreRow_map_mark_name (s : State) (gid k : String) :
    (genreRowOf { s with genres := s.genres.map (fun g => if g.id == gid then { g with deleted := true } else g) } k).name
      = (genreRowOf s k).name := by
  have hpred : ∀ g : Genre,
      ((fun g => g.id == k) ((fun g => if g.id == gid then { g with deleted := true } else g) g))
        = ((fun g => g.id == k) g) := by
    intro g
    show ((if (g.id == gid) = true then { g with deleted := true } else g).id == k) = (g.id == k)
    by_cases hg : g.id == gid <;> simp [hg]
  rw [genreRowOf, genreRowOf]
  show ((((s.genres.map (fun g => if g.id == gid then ({ g with deleted := true } : Genre) else g)).find? (fun g => g.id == k)).getD { id := k, name := "", deleted := false }).name : String) = (((s.genres.find? (fun g => g.id == k)).getD { id := k, name := "", deleted := false }).name : String)
  rw [find?_map_of_pred (fun g => if g.id == gid then { g with deleted := true } else g)
    (fun g => g.id == k) hpred s.genres]
  cases hf : s.genres.find? (fun g => g.id == k) with
  | none => rfl
  | some g =>
    show (if (g.id == gid) = true then { g with deleted := true } else g).name = g.name
    by_cases hg : g.id == gid <;> simp [hg]

theorem procItems_congr (s1 s2 : State) (hb : s1.books = s2.books)
    (hg : ∀ k, (genreRowOf s1 k).name = (genreRowOf s2 k).name) (oid : String) :
    ∀ (its : List OrderItem) (seen : List String)
      (go : List (String × List String)) (gn : List (String × String)),
      procItems s1 oid its seen go gn = procItems s2 oid its seen go gn := by
  intro its
  induction its with
  | nil => intro seen go gn; rfl
  | cons it rest ih =>
    intro seen go gn
    have hgid : gidOfItem s1 it = gidOfItem s2 it := by
      rw [gidOfItem, gidOfItem, bookOf, bookOf, hb]
    have hgn : gnameOfItem s1 it = gnameOfItem s2 it := by
      rw [gnameOfItem, gnameOfItem, hgid, hg]
    rw [procItems, procItems]
    simp only [hgid, hgn]
    by_cases hseen : seen.contains (gidOfItem s2 it) = true
    · rw [if_pos hseen, if_pos hseen]
      exact ih _ _ _
    · rw [if_neg hseen, if_neg hseen]
      exact ih _ _ _

theorem buildAcc_congr (s1 s2 : State) (ho : s1.order_items = s2.order_items)
    (hb : s1.books = s2.books)
    (hg : ∀ k, (genreRowOf s1 k).name = (genreRowOf s2 k).name) :
    ∀ (os : List Order) (acc : List (String × List String) × List (String × String)),
      buildAcc s1 os acc = buildAcc s2 os acc := by
  intro os
  induction os with
  | nil => intro acc; rfl
  | cons o rest ih =>
    intro acc
    rw [buildAcc, buildAcc]
    have hio : itemsOf s1 o.id = itemsOf s2 o.id := by rw [itemsOf, itemsOf, ho]
    rw [hio, procItems_congr s1 s2 hb hg o.id]
    exact ih _

theorem computeStatistics_congr (s1 s2 : State)
    (ho : s1.orders = s2.orders) (hi : s1.order_items = s2.order_items)
    (hb : s1.books = s2.books)
    (hg : ∀ k, (genreRowOf s1 k).name = (genreRowOf s2 k).name) :
    computeStatistics s1 = computeStatistics s2 := by
  have hot : ∀ oid, orderTotal s1 oid = orderTotal s2 oid := by
    intro oid
    simp only [orderTotal, itemsOf, bookOf, hi, hb]
  have hacc : buildAcc s1 s1.orders ([], []) = buildAcc s2 s2.orders ([], []) := by
    rw [ho]
    exact buildAcc_congr s1 s2 hi hb hg s2.orders ([], [])
  have havg : averageNominal s1 = averageNominal s2 := by
    simp only [averageNominal, ho]
    have hmap : s2.orders.map (fun o => orderTotal s1 o.id)
        = s2.orders.map (fun o => orderTotal s2 o.id) :=
      List.map_congr_left (fun o _ => hot o.id)
    rw [hmap]
  have hmost : mostSold s1 = mostSold s2 := by
    rw [mostSold, mostSold, genreOrdersList, genreOrdersList,
      genreNamesList, genreNamesList, hacc]
  have hleast : leastSold s1 = leastSold s2 := by
    rw [leastSold, leastSold, genreOrdersList, genreOrdersList,
      genreNamesList, genreNamesList, hacc]
  rw [computeStatistics, computeStatistics, ho, havg, hmost, hleast]

/-- C8: soft-deleting a genre only sets its deletion marker: the Order,
OrderItem and Book tables are untouched, the genre rows change at most in
their deletion flag, and the statistics computed afterwards are identical
(historical orders keep contributing). -/
theorem c8_genre_soft_delete_frame (s : State) (gid : String) :
    (deleteGenre s gid).2.orders = s.orders
    ∧ (deleteGenre s gid).2.order_items = s.order_items
    ∧ (deleteGenre s gid).2.books = s.books
    ∧ (deleteGenre s gid).2.genres.map (fun g => { g with deleted := false })
        = s.genres.map (fun g => { g with deleted := false })
    ∧ computeStatistics (deleteGenre s gid).2 = computeStatistics s := by
  rcases deleteGenre_state s gid with h | h <;> rw [h]
  · exact ⟨rfl, rfl, rfl, rfl, rfl⟩
  · refine ⟨rfl, rfl, rfl, ?_, ?_⟩
    · show (s.genres.map (fun g => if g.id == gid then { g with deleted := true } else g)).map (fun g => { g with deleted := false }) = _
      rw [List.map_map]
      refine List.map_congr_left ?_
      intro g _
      show ({ (if (g.id == gid) = true then { g with deleted := true } else g) with deleted := false } : Genre) = { g with deleted := false }
      by_cases hg : g.id == gid <;> simp [hg]
    · exact computeStatistics_congr _ s rfl rfl rfl (fun k => genreRow_map_mark_name s gid k)

/-! ### C4/C10: genreOrders accumulation -/

theorem lookupA_cons (ek : String) (ev : List String)
    (rest : List (String × List String)) (k : String) :
    lookupA ((ek, ev) :: rest) k = if (ek == k) = true then some ev else lookupA rest k := by
  by_cases h : (ek == k) = true
  · rw [lookupA, List.find?_cons_of_pos _ (by simpa using h), if_pos h]
    rfl
  · rw [lookupA, List.find?_cons_of_neg _ (by simpa using h), if_neg h]
    rfl

theorem contains_append (l1 l2 : List String) (x : String) :
    (l1 ++ l2).contains x = (l1.contains x || l2.contains x) := by
  induction l1 with
  | nil => simp
  | cons a l ih => simp_all [List.contains_cons, Bool.or_assoc]

theorem lookupA_goAdd (go : List (String × List String)) (gid oid k : String) :
    lookupA (goAdd go gid oid) k
      = if k = gid then some (setAddL ((lookupA go gid).getD []) oid) else lookupA go k := by
  induction go with
  | nil =>
    rw [goAdd]
    by_cases hk : k = gid
    · subst hk
      rw [lookupA_cons, if_pos (by simp), if_pos rfl]
      rfl
    · rw [lookupA_cons, if_neg (by simpa using fun h => hk h.symm), if_neg hk]
  | cons e rest ih =>
    obtain ⟨ek, ev⟩ := e
    rw [goAdd]
    by_cases hek : (ek == gid) = true
    · rw [if_pos hek]
      have hekeq : ek = gid := by simpa using hek
      by_cases hk : k = gid
      · subst hk
        subst hekeq
        rw [lookupA_cons, if_pos (by simp), if_pos rfl, lookupA_cons, if_pos (by simp)]
        rfl
      · have hekk : (ek == k) = false := by
          simp only [beq_eq_false_iff_ne, ne_eq, hekeq]
          exact fun h => hk h.symm
        rw [lookupA_cons, hekk, if_neg (by simp), if_neg hk, lookupA_cons, hekk, if_neg (by simp)]
    · rw [if_neg hek]
      by_cases hke : (ek == k) = true
      · have hkeq : ek = k := by simpa using hke
        have hk : ¬ k = gid := by
          intro h
          rw [hkeq, h] at hek
          simp at hek
        rw [lookupA_cons, if_pos hke, if_neg hk, lookupA_cons, if_pos hke]
      · have hkef : (ek == k) = false := by simpa using hke
        rw [lookupA_cons, hkef, if_neg (by simp), ih]
        by_cases hk : k = gid
        · rw [if_pos hk, if_pos hk]
          have hekg : (ek == gid) = false := by simpa using hek
          rw [lookupA_cons, hekg, if_neg (by simp)]
        · rw [if_neg hk, if_neg hk, lookupA_cons, hkef, if_neg (by simp)]

theorem procItems_fst (s : State) (oid : String) :
    ∀ (its : List OrderItem) (seen : List String)
      (go : List (String × List String)) (gn : List (String × String)) (k : String),
      lookupA (procItems s oid its seen go gn).1 k
        = if ((its.any (fun it => gidOfItem s it == k)) && !(seen.contains k)) = true
          then some (setAddL ((lookupA go k).getD []) oid)
          else lookupA go k := by
  intro its
  induction its with
  | nil =>
    intro seen go gn k
    simp [procItems]
  | cons it rest ih =>
    intro seen go gn k
    simp only [procItems]
    by_cases hseen : (seen.contains (gidOfItem s it)) = true
    · rw [if_pos hseen, ih]
      by_cases hk : (gidOfItem s it == k) = true
      · have hkeq : gidOfItem s it = k := by simpa using hk
        have hsk : seen.contains k = true := hkeq ▸ hseen
        simp only [List.any_cons, hk, Bool.true_or, hsk, Bool.not_true, Bool.and_false]
      · simp only [List.any_cons, hk, Bool.false_or]
    · rw [if_neg hseen, ih]
      by_cases hk : (gidOfItem s it == k) = true
      · have hkeq : gidOfItem s it = k := by simpa using hk
        have hsk : seen.contains k = false := by
          rw [← hkeq]
          simpa using hseen
        have hsk2 : ((seen ++ [gidOfItem s it]).contains k) = true := by
          rw [contains_append]
          have : ([gidOfItem s it].contains k) = true := by
            simp [List.contains_cons, hkeq]
          rw [this, Bool.or_true]
        have hgoadd : lookupA (goAdd go (gidOfItem s it) oid) k
            = some (setAddL ((lookupA go k).getD []) oid) := by
          rw [lookupA_goAdd, if_pos hkeq.symm, hkeq]
        rw [hsk2]
        simp only [Bool.not_true, Bool.and_false]
        rw [if_neg (by simp), hgoadd]
        simp only [List.any_cons, hk, Bool.true_or, hsk, Bool.not_false, Bool.and_true]
        rw [if_pos trivial]
      · have hkne : ¬ k = gidOfItem s it := by
          intro h
          rw [← h] at hk
          simp at hk
        have hsk2 : ((seen ++ [gidOfItem s it]).contains k) = (seen.contains k) := by
          rw [contains_append]
          have : ([gidOfItem s it].contains k) = false := by
            simp only [List.contains_cons, List.contains_nil, Bool.or_false]
            simpa using hkne
          rw [this, Bool.or_false]
        rw [lookupA_goAdd, if_neg hkne]
        simp only [List.any_cons, hk, Bool.false_or, hsk2]

theorem touchedIds_cons (s : State) (o : Order) (rest : List Order) (k : String) :
    touchedIds s (o :: rest) k
      = (if touchesGenre s o k = true then [o.id] else []) ++ touchedIds s rest k := by
  rw [touchedIds, touchedIds, List.filter_cons]
  by_cases h : touchesGenre s o k = true <;> simp [h]

theorem buildAcc_fst (s : State) :
    ∀ (os : List Order) (go : List (String × List String)) (gn : List (String × String)),
      ((os.map (fun o => o.id)).Nodup) →
      (∀ o ∈ os, ∀ k l, lookupA go k = some l → l.contains o.id = false) →
      ∀ k, lookupA (buildAcc s os (go, gn)).1 k
        = match lookupA go k with
          | none => if touchedIds s os k = [] then none else some (touchedIds s os k)
          | some l => some (l ++ touchedIds s os k) := by
  intro os
  induction os with
  | nil =>
    intro go gn _ _ k
    rw [buildAcc, touchedIds]
    cases lookupA go k <;> simp
  | cons o rest ih =>
    intro go gn hnd hfresh k
    simp only [List.map_cons, List.nodup_cons] at hnd
    rw [buildAcc]
    have hpair : procItems s o.id (itemsOf s o.id) [] go gn
        = ((procItems s o.id (itemsOf s o.id) [] go gn).1,
           (procItems s o.id (itemsOf s o.id) [] go gn).2) := rfl
    rw [hpair]
    have hgo1 : ∀ k2, lookupA (procItems s o.id (itemsOf s o.id) [] go gn).1 k2
        = if touchesGenre s o k2 = true
          then some (setAddL ((lookupA go k2).getD []) o.id)
          else lookupA go k2 := by
      intro k2
      rw [procItems_fst s o.id (itemsOf s o.id) [] go gn k2]
      simp only [List.contains_nil, Bool.not_false, Bool.and_true]
      rfl
    have hfresh1 : ∀ o2 ∈ rest, ∀ k2 l,
        lookupA (procItems s o.id (itemsOf s o.id) [] go gn).1 k2 = some l →
        l.contains o2.id = false := by
      intro o2 ho2 k2 l hl
      rw [hgo1 k2] at hl
      have hne : (o2.id == o.id) = false := by
        simp only [beq_eq_false_iff_ne, ne_eq]
        intro h
        exact hnd.1 (h ▸ List.mem_map_of_mem (fun o => o.id) ho2)
      by_cases ht : touchesGenre s o k2 = true
      · rw [if_pos ht] at hl
        obtain rfl : setAddL ((lookupA go k2).getD []) o.id = l := by simpa using hl
        rw [setAddL]
        cases hgo : lookupA go k2 with
        | none =>
          simp only [hgo, Option.getD_none, List.contains_nil]
          rw [if_neg (by simp)]
          simp only [List.nil_append, List.contains_cons, List.contains_nil, Bool.or_false]
          exact hne
        | some l0 =>
          have hl0 := hfresh o2 (List.mem_cons_of_mem _ ho2) k2 l0 hgo
          simp only [hgo, Option.getD_some]
          by_cases hmem : (l0.contains o.id) = true
          · rw [if_pos hmem]
            exact hl0
          · rw [if_neg hmem, contains_append, hl0]
            simp only [Bool.false_or, List.contains_cons, List.contains_nil, Bool.or_false]
            exact hne
      · rw [if_neg ht] at hl
        exact hfresh o2 (List.mem_cons_of_mem _ ho2) k2 l hl
    rw [ih (procItems s o.id (itemsOf s o.id) [] go gn).1
      (procItems s o.id (itemsOf s o.id) [] go gn).2 hnd.2 hfresh1 k]
    rw [hgo1 k, touchedIds_cons]
    have hfresho := hfresh o (List.mem_cons_self _ _) k
    by_cases ht : touchesGenre s o k = true
    · rw [if_pos ht, if_pos ht]
      cases hgo : lookupA go k with
      | none =>
        simp only [Option.getD_none, setAddL, List.contains_nil]
        rw [if_neg (by simp)]
        simp only [List.nil_append]
        rw [if_neg (by simp)]
      | some l0 =>
        have hl0 := hfresho l0 hgo
        simp only [Option.getD_some, setAddL, hl0]
        rw [if_neg (by simp)]
        simp [List.append_assoc]
    · rw [if_neg ht, if_neg ht]
      cases hgo : lookupA go k with
      | none => simp
      | some l0 => simp

theorem genreOrdersList_lookup (s : State)
    (hnd : (s.orders.map (fun o => o.id)).Nodup) (k : String) :
    lookupA (genreOrdersList s) k
      = if touchedIds s s.orders k = [] then none
        else some (touchedIds s s.orders k) := by
  rw [genreOrdersList]
  have h := buildAcc_fst s s.orders [] [] hnd
    (by intro o _ k2 l hl; exact absurd hl (by simp [lookupA])) k
  simpa [lookupA] using h

theorem lookupA_head (e : String × List String) (rest : List (String × List String)) :
    lookupA (e :: rest) e.1 = some e.2 := by
  obtain ⟨ek, ev⟩ := e
  rw [lookupA_cons, if_pos (by simp)]

/-! ### C4/C10: selection loop -/

theorem maxFrom_cons (c : Nat) (e : String × List String) (rest : List (String × List String)) :
    maxFrom c (e :: rest) = maxFrom (max c e.2.length) rest := rfl

theorem minFrom_cons (c : Nat) (e : String × List String) (rest : List (String × List String)) :
    minFrom c (e :: rest) = minFrom (min c e.2.length) rest := rfl

theorem maxFrom_ge_init : ∀ (gs : List (String × List String)) (c : Nat), c ≤ maxFrom c gs := by
  intro gs
  induction gs with
  | nil => intro c; exact le_refl c
  | cons e rest ih =>
    intro c
    rw [maxFrom_cons]
    exact le_trans (le_max_left c e.2.length) (ih (max c e.2.length))

theorem minFrom_le_init : ∀ (gs : List (String × List String)) (c : Nat), minFrom c gs ≤ c := by
  intro gs
  induction gs with
  | nil => intro c; exact le_refl c
  | cons e rest ih =>
    intro c
    rw [minFrom_cons]
    exact le_trans (ih (min c e.2.length)) (min_le_left c e.2.length)

theorem maxFrom_ge_mem : ∀ (gs : List (String × List String)) (c : Nat)
    (e : String × List String), e ∈ gs → e.2.length ≤ maxFrom c gs := by
  intro gs
  induction gs with
  | nil => intro c e he; simp at he
  | cons e0 rest ih =>
    intro c e he
    rw [maxFrom_cons]
    rcases List.mem_cons.mp he with rfl | hr
    · exact le_trans (le_max_right c e.2.length) (maxFrom_ge_init rest _)
    · exact ih (max c e0.2.length) e hr

theorem minFrom_le_mem : ∀ (gs : List (String × List String)) (c : Nat)
    (e : String × List String), e ∈ gs → minFrom c gs ≤ e.2.length := by
  intro gs
  induction gs with
  | nil => intro c e he; simp at he
  | cons e0 rest ih =>
    intro c e he
    rw [minFrom_cons]
    rcases List.mem_cons.mp he with rfl | hr
    · exact le_trans (minFrom_le_init rest _) (min_le_right c e.2.length)
    · exact ih (min c e0.2.length) e hr

theorem maxFrom_eq_of_all : ∀ (gs : List (String × List String)) (c : Nat),
    (∀ e ∈ gs, e.2.length ≤ c) → maxFrom c gs = c := by
  intro gs
  induction gs with
  | nil => intro c _; rfl
  | cons e rest ih =>
    intro c h
    rw [maxFrom_cons, max_eq_left (h e (List.mem_cons_self _ _))]
    exact ih c (fun x hx => h x (List.mem_cons_of_mem _ hx))

theorem minFrom_eq_of_all : ∀ (gs : List (String × List String)) (c : Nat),
    (∀ e ∈ gs, c ≤ e.2.length) → minFrom c gs = c := by
  intro gs
  induction gs with
  | nil => intro c _; rfl
  | cons e rest ih =>
    intro c h
    rw [minFrom_cons, min_eq_left (h e (List.mem_cons_self _ _))]
    exact ih c (fun x hx => h x (List.mem_cons_of_mem _ hx))

theorem maxFrom_gt_of_not_all (gs : List (String × List String)) (c : Nat)
    (h : ¬ ∀ e ∈ gs, e.2.length ≤ c) : c < maxFrom c gs := by
  push_neg at h
  rcases h with ⟨e, he, hlt⟩
  exact lt_of_lt_of_le hlt (maxFrom_ge_mem gs c e he)

theorem minFrom_lt_of_not_all (gs : List (String × List String)) (c : Nat)
    (h : ¬ ∀ e ∈ gs, c ≤ e.2.length) : minFrom c gs < c := by
  push_neg at h
  rcases h with ⟨e, he, hlt⟩
  exact lt_of_le_of_lt (minFrom_le_mem gs c e he) hlt

theorem minCnt_le_mem (gs : List (String × List String)) (e : String × List String)
    (he : e ∈ gs) : minCnt gs ≤ e.2.length := by
  cases gs with
  | nil => simp at he
  | cons e0 rest =>
    show minFrom e0.2.length rest ≤ e.2.length
    rcases List.mem_cons.mp he with rfl | hr
    · exact minFrom_le_init rest e.2.length
    · exact minFrom_le_mem rest e0.2.length e hr

theorem selectML_fst_acc (gn : List (String × String)) :
    ∀ (gs : List (String × List String)) (m : GenreStat) (ls : Option GenreStat),
      (selectML gn gs (some m) ls).1
        = if ∀ e ∈ gs, e.2.length ≤ m.count then some m
          else (gs.find? (fun e => e.2.length == maxFrom m.count gs)).map (toStat gn) := by
  intro gs
  induction gs with
  | nil =>
    intro m ls
    rw [selectML, if_pos (by intro e he; simp at he)]
  | cons e rest ih =>
    obtain ⟨gid, set⟩ := e
    intro m ls
    simp only [selectML]
    by_cases hc : set.length > m.count
    · rw [if_pos hc]
      have hnall : ¬ ∀ e ∈ (gid, set) :: rest, e.2.length ≤ m.count := by
        intro hall
        have h2 : set.length ≤ m.count := hall (gid, set) (List.mem_cons_self _ _)
        omega
      rw [if_neg hnall, ih { genre_id := gid, name := nameFor gn gid, count := set.length } _]
      have hmf : maxFrom m.count ((gid, set) :: rest) = maxFrom set.length rest := by
        rw [maxFrom_cons]
        congr 1
        exact max_eq_right (le_of_lt hc)
      rw [hmf]
      by_cases hall : ∀ e ∈ rest, e.2.length ≤ set.length
      · rw [if_pos hall, maxFrom_eq_of_all rest set.length hall,
          List.find?_cons_of_pos _ (by simp)]
        rfl
      · rw [if_neg hall]
        have hgt := maxFrom_gt_of_not_all rest set.length hall
        rw [List.find?_cons_of_neg _ (by simp; omega)]
    · rw [if_neg hc, ih m _]
      have hle : set.length ≤ m.count := by omega
      by_cases hall : ∀ e ∈ rest, e.2.length ≤ m.count
      · rw [if_pos hall, if_pos (by
          intro e he
          rcases List.mem_cons.mp he with rfl | hr
          · exact hle
          · exact hall e hr)]
      · rw [if_neg hall, if_neg (fun h => hall (fun e he => h e (List.mem_cons_of_mem _ he)))]
        have hmf : maxFrom m.count ((gid, set) :: rest) = maxFrom m.count rest := by
          rw [maxFrom_cons]
          congr 1
          exact max_eq_left hle
        rw [hmf]
        have hgt := maxFrom_gt_of_not_all rest m.count hall
        rw [List.find?_cons_of_neg _ (by simp; omega)]

theorem selectML_snd_acc (gn : List (String × String)) :
    ∀ (gs : List (String × List String)) (mo : Option GenreStat) (m : GenreStat),
      (selectML gn gs mo (some m)).2
        = if ∀ e ∈ gs, m.count ≤ e.2.length then some m
          else (gs.find? (fun e => e.2.length == minFrom m.count gs)).map (toStat gn) := by
  intro gs
  induction gs with
  | nil =>
    intro mo m
    rw [selectML, if_pos (by intro e he; simp at he)]
  | cons e rest ih =>
    obtain ⟨gid, set⟩ := e
    intro mo m
    simp only [selectML]
    by_cases hc : set.length < m.count
    · rw [if_pos hc]
      have hnall : ¬ ∀ e ∈ (gid, set) :: rest, m.count ≤ e.2.length := by
        intro hall
        have h2 : m.count ≤ set.length := hall (gid, set) (List.mem_cons_self _ _)
        omega
      rw [if_neg hnall, ih _ { genre_id := gid, name := nameFor gn gid, count := set.length }]
      have hmf : minFrom m.count ((gid, set) :: rest) = minFrom set.length rest := by
        rw [minFrom_cons]
        congr 1
        exact min_eq_right (le_of_lt hc)
      rw [hmf]
      by_cases hall : ∀ e ∈ rest, set.length ≤ e.2.length
      · rw [if_pos hall, minFrom_eq_of_all rest set.length hall,
          List.find?_cons_of_pos _ (by simp)]
        rfl
      · rw [if_neg hall]
        have hlt := minFrom_lt_of_not_all rest set.length hall
        rw [List.find?_cons_of_neg _ (by simp; omega)]
    · rw [if_neg hc, ih _ m]
      have hle : m.count ≤ set.length := by omega
      by_cases hall : ∀ e ∈ rest, m.count ≤ e.2.length
      · rw [if_pos hall, if_pos (by
          intro e he
          rcases List.mem_cons.mp he with rfl | hr
          · exact hle
          · exact hall e hr)]
      · rw [if_neg hall, if_neg (fun h => hall (fun e he => h e (List.mem_cons_of_mem _ he)))]
        have hmf : minFrom m.count ((gid, set) :: rest) = minFrom m.count rest := by
          rw [minFrom_cons]
          congr 1
          exact min_eq_left hle
        rw [hmf]
        have hlt := minFrom_lt_of_not_all rest m.count hall
        rw [List.find?_cons_of_neg _ (by simp; omega)]

theorem selectML_fst_none (gn : List (String × String)) (gs : List (String × List String))
    (hne : gs ≠ []) :
    (selectML gn gs none none).1
      = (gs.find? (fun e => e.2.length == maxCnt gs)).map (toStat gn) := by
  cases gs with
  | nil => exact absurd rfl hne
  | cons e rest =>
    obtain ⟨gid, set⟩ := e
    simp only [selectML]
    rw [selectML_fst_acc gn rest { genre_id := gid, name := nameFor gn gid, count := set.length }]
    have hmc : maxCnt ((gid, set) :: rest) = maxFrom set.length rest := by
      show maxFrom 0 ((gid, set) :: rest) = _
      rw [maxFrom_cons]
      congr 1
      simp
    rw [hmc]
    by_cases hall : ∀ e ∈ rest, e.2.length ≤ set.length
    · rw [if_pos hall, maxFrom_eq_of_all rest set.length hall,
        List.find?_cons_of_pos _ (by simp)]
      rfl
    · rw [if_neg hall]
      have hgt := maxFrom_gt_of_not_all rest set.length hall
      rw [List.find?_cons_of_neg _ (by simp; omega)]

theorem selectML_snd_none (gn : List (String × String)) (gs : List (String × List String))
    (hne : gs ≠ []) :
    (selectML gn gs none none).2
      = (gs.find? (fun e => e.2.length == minCnt gs)).map (toStat gn) := by
  cases gs with
  | nil => exact absurd rfl hne
  | cons e rest =>
    obtain ⟨gid, set⟩ := e
    simp only [selectML]
    rw [selectML_snd_acc gn rest _ { genre_id := gid, name := nameFor gn gid, count := set.length }]
    have hmc : minCnt ((gid, set) :: rest) = minFrom set.length rest := rfl
    rw [hmc]
    by_cases hall : ∀ e ∈ rest, set.length ≤ e.2.length
    · rw [if_pos hall, minFrom_eq_of_all rest set.length hall,
        List.find?_cons_of_pos _ (by simp)]
      rfl
    · rw [if_neg hall]
      have hlt := minFrom_lt_of_not_all rest set.length hall
      rw [List.find?_cons_of_neg _ (by simp; omega)]

/-- C10: both selection comparisons are strict, so among genres tied at the
extremum the entry whose first appearance (iterating orders and their line
items in stored sequence, which is the insertion order of `genreOrders`) is
earliest wins: the loop returns exactly the first entry attaining the
maximum (resp. minimum) distinct-order count. -/
theorem c10_ties_resolved_by_first_encounter (s : State)
    (hne : genreOrdersList s ≠ []) :
    (computeStatistics s).most_sold_genre
      = ((genreOrdersList s).find? (fun e => e.2.length == maxCnt (genreOrdersList s))).map
          (toStat (genreNamesList s))
    ∧ (computeStatistics s).least_sold_genre
      = ((genreOrdersList s).find? (fun e => e.2.length == minCnt (genreOrdersList s))).map
          (toStat (genreNamesList s)) := by
  constructor
  · show mostSold s = _
    rw [mostSold, selectML_fst_none (genreNamesList s) (genreOrdersList s) hne]
  · show leastSold s = _
    rw [leastSold, selectML_snd_none (genreNamesList s) (genreOrdersList s) hne]

/-- Witness for C10 on the two-genre state. -/
theorem c10_ties_resolved_by_first_encounter_witness :
    genreOrdersList sStats ≠ []
    ∧ ((computeStatistics sStats).most_sold_genre
        = ((genreOrdersList sStats).find?
            (fun e => e.2.length == maxCnt (genreOrdersList sStats))).map
              (toStat (genreNamesList sStats))
      ∧ (computeStatistics sStats).least_sold_genre
        = ((genreOrdersList sStats).find?
            (fun e => e.2.length == minCnt (genreOrdersList sStats))).map
              (toStat (genreNamesList sStats))) :=
  ⟨by decide, c10_ties_resolved_by_first_encounter sStats (by decide)⟩

/-- C4: the statistics count each genre by distinct orders touching it, an
order with several books of one genre counts once, most/least are entries
attaining the maximum/minimum count, and both are null when no order
references any genre. -/
theorem c4_distinct_order_genre_counts (s : State)
    (hnd : (s.orders.map (fun o => o.id)).Nodup) : statsGenreSpec s := by
  have hlook := genreOrdersList_lookup s hnd
  refine ⟨?_, ?_, ?_, ?_, ?_⟩
  · intro k l hl
    rw [hlook k] at hl
    by_cases ht : touchedIds s s.orders k = []
    · rw [if_pos ht] at hl
      exact absurd hl (by simp)
    · rw [if_neg ht] at hl
      obtain rfl : touchedIds s s.orders k = l := by simpa using hl
      rw [touchedIds, List.length_map]
  · intro k hl o ho
    rw [hlook k] at hl
    by_cases ht : touchedIds s s.orders k = []
    · rw [touchedIds] at ht
      have hfil : s.orders.filter (fun o => touchesGenre s o k) = [] := by
        rcases List.map_eq_nil_iff.mp ht with h
        exact h
      have hnt := List.filter_eq_nil_iff.mp hfil o ho
      exact eq_false_of_ne_true hnt
    · rw [if_neg ht] at hl
      exact absurd hl (by simp)
  · intro hempty
    have hgs : genreOrdersList s = [] := by
      by_contra hne
      obtain ⟨e, rest, hcons⟩ : ∃ e rest, genreOrdersList s = e :: rest := by
        cases hgg : genreOrdersList s with
        | nil => exact absurd hgg hne
        | cons e rest => exact ⟨e, rest, rfl⟩
      have h1 : lookupA (genreOrdersList s) e.1 = some e.2 := by
        rw [hcons]
        exact lookupA_head e rest
      rw [hlook e.1] at h1
      have htt : touchedIds s s.orders e.1 = [] := by
        rw [touchedIds]
        have hfil : s.orders.filter (fun o => touchesGenre s o e.1) = [] := by
          rw [List.filter_eq_nil_iff]
          intro o ho
          rw [touchesGenre, hempty o ho]
          simp
        rw [hfil]
        rfl
      rw [if_pos htt] at h1
      exact absurd h1 (by simp)
    constructor
    · show mostSold s = none
      rw [mostSold, hgs]
      rfl
    · show leastSold s = none
      rw [leastSold, hgs]
      rfl
  · intro m hm
    have hm2 : mostSold s = some m := hm
    have hne : genreOrdersList s ≠ [] := by
      intro hgs
      rw [mostSold, hgs] at hm2
      exact absurd hm2 (by simp [selectML])
    rw [mostSold, selectML_fst_none (genreNamesList s) (genreOrdersList s) hne] at hm2
    cases hfind : (genreOrdersList s).find?
        (fun e => e.2.length == maxCnt (genreOrdersList s)) with
    | none =>
      rw [hfind] at hm2
      exact absurd hm2 (by simp)
    | some e =>
      rw [hfind] at hm2
      obtain rfl : toStat (genreNamesList s) e = m := by simpa using hm2
      have hmem := List.mem_of_find?_eq_some hfind
      have hpe : e.2.length = maxCnt (genreOrdersList s) := by
        simpa using List.find?_some hfind
      refine ⟨⟨e, hmem, rfl, rfl⟩, ?_⟩
      intro e2 he2
      show e2.2.length ≤ e.2.length
      rw [hpe]
      exact maxFrom_ge_mem (genreOrdersList s) 0 e2 he2
  · intro m hm
    have hm2 : leastSold s = some m := hm
    have hne : genreOrdersList s ≠ [] := by
      intro hgs
      rw [leastSold, hgs] at hm2
      exact absurd hm2 (by simp [selectML])
    rw [leastSold, selectML_snd_none (genreNamesList s) (genreOrdersList s) hne] at hm2
    cases hfind : (genreOrdersList s).find?
        (fun e => e.2.length == minCnt (genreOrdersList s)) with
    | none =>
      rw [hfind] at hm2
      exact absurd hm2 (by simp)
    | some e =>
      rw [hfind] at hm2
      obtain rfl : toStat (genreNamesList s) e = m := by simpa using hm2
      have hmem := List.mem_of_find?_eq_some hfind
      have hpe : e.2.length = minCnt (genreOrdersList s) := by
        simpa using List.find?_some hfind
      refine ⟨⟨e, hmem, rfl, rfl⟩, ?_⟩
      intro e2 he2
      show e.2.length ≤ e2.2.length
      rw [hpe]
      exact minCnt_le_mem (genreOrdersList s) e2 he2

/-- Witness for C4 on the two-genre state (order o1 touches genre g1 via
two books and counts once for it). -/
theorem c4_distinct_order_genre_counts_witness :
    (sStats.orders.map (fun o => o.id)).Nodup ∧ statsGenreSpec sStats :=
  ⟨by decide, c4_distinct_order_genre_counts sStats (by decide)⟩

end Shop
